import Mathlib

/-!
Spinnerette: request dispatch and script-execution lifecycle.

A shallow embedding of `main.go`: the start-up sequence of `main`, the
dispatcher `Handler.ServeHTTP` and the two script handlers `janetHandler`
and `templeHandler`.  Calls into the Janet bindings, the operating system
and `net/http` are recorded as events; the functions of the Go standard
library the claims depend on (`filepath.Join`, `filepath.Ext`,
`strings.ToLower`, the documented behaviour of `http.ServeFile`) are written
out.
-/

namespace Spinnerette

/-! ## Go standard library: path functions (Unix) -/

/-- The elements of a path between its `/` separators.  The main loop of
`filepath.Clean` reads a path element by element: a separator only ends an
element, and each maximal run of other bytes is handled in one iteration. -/
def splitSlash : List Char → List (List Char)
  | [] => [[]]
  | c :: cs =>
    if c = '/' then [] :: splitSlash cs
    else
      match splitSlash cs with
      | [] => [[c]]
      | s :: ss => (c :: s) :: ss

/-- State of `filepath.Clean`: the bytes written so far (`buf[0:w]`) and
`dotdot`, the index in the buffer where a `..` must stop. -/
structure CleanBuf where
  out : List Char
  dotdot : Nat
deriving DecidableEq, Repr

/-- The inner loop of a `..` element in `filepath.Clean`:
`for out.w > dotdot && !os.IsPathSeparator(out.index(out.w)) { out.w-- }`. -/
def backtrack (buf : List Char) (dotdot : Nat) : Nat → Nat
  | 0 => 0
  | w + 1 =>
    if w + 1 > dotdot ∧ buf.getD (w + 1) '/' ≠ '/' then backtrack buf dotdot w
    else w + 1

/-- One iteration of the main loop of `filepath.Clean`, on the path element
`elem` that starts at the read position. -/
def cleanStep (rooted : Bool) (s : CleanBuf) (elem : List Char) : CleanBuf :=
  if elem = [] then
    -- empty path element
    s
  else if elem = ['.'] then
    -- . element
    s
  else if elem = ['.', '.'] then
    -- .. element: remove to last separator
    if s.out.length > s.dotdot then
      -- can backtrack
      { s with out := s.out.take (backtrack s.out s.dotdot (s.out.length - 1)) }
    else if !rooted then
      -- cannot backtrack, but not rooted, so append .. element
      let out := (if s.out.length > 0 then s.out ++ ['/'] else s.out) ++ ['.', '.']
      { out := out, dotdot := out.length }
    else s
  else
    -- real path element: add slash if needed, copy element
    let out :=
      if (rooted && s.out.length != 1) || (!rooted && s.out.length != 0) then s.out ++ ['/']
      else s.out
    { s with out := out ++ elem }

/-- The buffer of `filepath.Clean` before its main loop: a rooted path starts
with the separator, written to the buffer, and `..` cannot go past it. -/
def cleanInit (rooted : Bool) : CleanBuf :=
  if rooted then ⟨['/'], 1⟩ else ⟨[], 0⟩

/-- The main loop of `filepath.Clean`, over the elements of a non-empty path. -/
def cleanLoop (path : List Char) : CleanBuf :=
  (splitSlash path).foldl (cleanStep (path.head? == some '/')) (cleanInit (path.head? == some '/'))

/-- Go's `filepath.Clean` on the characters of a path. -/
def cleanChars (path : List Char) : List Char :=
  if path = [] then ['.']
  else if (cleanLoop path).out.length = 0 then
    -- Turn empty string into "."
    ['.']
  else (cleanLoop path).out

/-- Go's `filepath.Clean`. -/
def Clean (path : String) : String := ⟨cleanChars path.data⟩

/-- Go's `filepath.Join` for two elements: empty leading elements are
ignored, the rest is joined with `/` and cleaned. -/
def Join (a b : String) : String :=
  if a ≠ "" then Clean ⟨a.data ++ '/' :: b.data⟩
  else if b ≠ "" then Clean b
  else ""

/-- The loop of `filepath.Ext`, scanning from the last character:
`for i := len(path) - 1; i >= 0 && !os.IsPathSeparator(path[i]); i--`. -/
def extScan : List Char → List Char → List Char
  | [], _ => []
  | c :: rev, acc =>
    if c = '/' then []
    else if c = '.' then c :: acc
    else extScan rev (c :: acc)

/-- Go's `filepath.Ext`: the suffix beginning at the final dot in the final
element of the path, empty if there is no dot. -/
def Ext (path : String) : String := ⟨extScan path.data.reverse []⟩

/-! ## Go standard library: `strings.ToLower` -/

/-- The rune mapping of `strings.ToLower`: ASCII upper-case letters are moved
to lower case, other ASCII characters are kept, and a rune outside ASCII goes
through the Unicode case tables `uni`. -/
def lowerRune (uni : Char → Char) (c : Char) : Char :=
  if c.toNat < 128 then
    if 'A'.toNat ≤ c.toNat ∧ c.toNat ≤ 'Z'.toNat then Char.ofNat (c.toNat + ('a'.toNat - 'A'.toNat))
    else c
  else uni c

/-- Go's `strings.ToLower`. -/
def ToLower (uni : Char → Char) (s : String) : String := ⟨s.data.map (lowerRune uni)⟩

/-! ## Data model -/

/-- The file contents and response bodies are byte strings. -/
abbrev Bytes := List UInt8

/-- A Go `error` value; the program only ever reads its text (`err.Error()`). -/
structure Err where
  Error : String
deriving DecidableEq, Repr

/-- The command-line flags (`type Flags struct`), held in `parsedFlags`. -/
structure Flags where
  Root : String
  Method : String
  Port : Int
  Socket : String
deriving DecidableEq, Repr

/-- The part of `*http.Request` the handler and `net/http` look at: the
method, `r.URL.Path`, and the header entries under their canonical keys. -/
structure Request where
  Method : String
  URLPath : String
  Header : List (String × String)
deriving DecidableEq, Repr

/-- What the filesystem holds at a path, as `os.Stat` and `os.Open` meet it. -/
inductive Node where
  /-- Nothing, while the directories leading to the path can be walked:
  `os.Stat` fails with `ENOENT`, the one error for which `os.IsNotExist` is
  true. -/
  | notExist
  /-- Nothing, because a leading component of the path is a regular file:
  `os.Stat` fails with `ENOTDIR`, for which `os.IsNotExist` is false. -/
  | notDir
  /-- Something that cannot be examined or opened (any other error, such as
  `EACCES`). -/
  | inaccessible
  /-- A directory. -/
  | dir
  /-- A regular file with its content. -/
  | file (content : Bytes)
deriving DecidableEq, Repr

/-- The path names nothing on the filesystem. -/
def Node.missing : Node → Bool
  | .notExist => true
  | .notDir => true
  | _ => false

/-- What a call of `net/http` writes to the `http.ResponseWriter`. -/
inductive Response where
  /-- The call `http.Error(w, msg, code)`: status `code` and the text `msg`,
  written as a line of plain text, as body. -/
  | error (msg : String) (code : Nat)
  /-- A local redirect: status 301 with a `Location` header. -/
  | redirect (location : String)
  /-- Status 200 with the given bytes as body. -/
  | content (body : Bytes)
deriving DecidableEq, Repr

/-- The status line of a response. -/
def Response.status : Response → Nat
  | .error _ code => code
  | .redirect _ => 301
  | .content _ => 200

/-- The Janet bindings (`github.com/rushsteve1/spinnerette/bindings`) as far
as the handlers observe them: the results of `janet.RequestEnv`,
`janet.EvalFilePath` and `janet.RenderTemple`, and what `janet.WriteResponse`
writes for a value. -/
structure Janet (Env Val : Type) where
  RequestEnv : Request → Except Err Env
  EvalFilePath : String → Env → Except Err Val
  RenderTemple : String → Env → Except Err Val
  WriteResponse : Val → Response

/-- The surroundings of the process: the filesystem, and the behaviour of the
Go library where this development leaves it open (directory requests, files
that cannot be opened, conditional and range requests, Unicode case tables,
the outcome of `net.Listen`).  The function `fs` gives what `os.Stat` and
`os.Open` find at a path; `ServeHTTP` takes the branch of line 114 when
`os.IsNotExist(err)` holds, which is when `fs` gives `Node.notExist`. -/
structure World where
  fs : String → Node
  serveDir : Request → String → Response
  openFailure : Request → String → Response
  serveConditional : Request → Bytes → Response
  uni : Char → Char
  listenFails : String → String → Option Err

/-- The calls a request handler makes, in order. -/
inductive Event (Val : Type) where
  /-- Call `os.Stat(path)` -/
  | Stat (path : String)
  /-- Call `http.NotFound(w, r)` -/
  | NotFound
  /-- Call `http.ServeFile(w, r, path)` -/
  | ServeFile (path : String)
  /-- Call `janet.Init()` -/
  | Init
  /-- Call `janet.DeInit()` -/
  | DeInit
  /-- Call `janet.RequestEnv(r)` -/
  | RequestEnv
  /-- Call `janet.EvalFilePath(path, env)` -/
  | EvalFilePath (path : String)
  /-- Call `janet.RenderTemple(path, env)` -/
  | RenderTemple (path : String)
  /-- Call `http.Error(w, msg, code)` -/
  | Error (msg : String) (code : Nat)
  /-- Call `log.Println(msg)` -/
  | Println (msg : String)
  /-- Call `janet.WriteResponse(j, w)` -/
  | WriteResponse (j : Val)
deriving DecidableEq, Repr

namespace Event

variable {Val : Type}

/-- Acquisition of the runtime. -/
def isInit : Event Val → Bool
  | Init => true
  | _ => false

/-- Release of the runtime. -/
def isDeInit : Event Val → Bool
  | DeInit => true
  | _ => false

/-- Evaluation of a script. -/
def isEval : Event Val → Bool
  | EvalFilePath _ => true
  | _ => false

/-- Rendering of a template. -/
def isRender : Event Val → Bool
  | RenderTemple _ => true
  | _ => false

/-- The result-writing step. -/
def isWriteResponse : Event Val → Bool
  | WriteResponse _ => true
  | _ => false

/-- A call of `http.ServeFile`. -/
def isServeFile : Event Val → Bool
  | ServeFile _ => true
  | _ => false

/-- A call of `http.Error` with status 500. -/
def isError500 : Event Val → Bool
  | Error _ code => code == 500
  | _ => false

end Event

/-! ## Go standard library: `http.ServeFile` -/

/-- The elements of a URL path in `containsDotDot`:
`strings.FieldsFunc(v, isSlashRune)`, separators being `/` and `\`; an element
that is empty does not matter for the test. -/
def splitSlashRune : List Char → List (List Char)
  | [] => [[]]
  | c :: cs =>
    if c = '/' ∨ c = '\\' then [] :: splitSlashRune cs
    else
      match splitSlashRune cs with
      | [] => [[c]]
      | s :: ss => (c :: s) :: ss

/-- The test `containsDotDot` of `net/http`: some element of the path is `..`. -/
def containsDotDot (v : String) : Bool := (splitSlashRune v.data).contains ['.', '.']

/-- Go's `strings.HasSuffix`. -/
def HasSuffix (s suffix : String) : Bool := suffix.data.reverse.isPrefixOf s.data.reverse

/-- The request headers `http.ServeContent` reacts to (preconditions and ranges). -/
def conditionalHeaders : List String :=
  ["If-Match", "If-Unmodified-Since", "If-None-Match", "If-Modified-Since", "Range", "If-Range"]

/-- A `GET` request that carries no precondition and no range. -/
def plainGet (r : Request) : Bool :=
  r.Method == "GET" && r.Header.all (fun h => !conditionalHeaders.contains h.1)

/-- The response of `http.ServeFile(w, r, name)`, after its documentation:
"As a precaution, ServeFile will reject requests where r.URL.Path contains a
".." path element", and "As a special case, ServeFile redirects any request
where r.URL.Path ends in "/index.html" to the same path, without the final
"index.html"".  Otherwise it opens `name`; a regular file is sent by
`http.ServeContent`, which for a plain `GET` writes status 200 and the whole
content. -/
def ServeFile (w : World) (r : Request) (name : String) : Response :=
  if containsDotDot r.URLPath then .error "invalid URL path" 400
  else if HasSuffix r.URLPath "/index.html" then .redirect "./"
  else
    match w.fs name with
    | .notExist => .error "404 page not found" 404
    | .notDir => w.openFailure r name
    | .inaccessible => w.openFailure r name
    | .dir => w.serveDir r name
    | .file content => if plainGet r then .content content else w.serveConditional r content

/-! ## The request handler (`main.go`, lines 107-169) -/

section Handler

variable {Env Val : Type}

/-- The method `Handler.janetHandler`.  `janet.DeInit` is deferred right after
`janet.Init`, so it runs when the handler returns, whichever `return` is
taken. -/
def janetHandler (janet : Janet Env Val) (r : Request) (path : String) : List (Event Val) :=
  Event.Init ::
  (Event.RequestEnv ::
    match janet.RequestEnv r with
    | .error err => [Event.Error "Could not build request env" 500, Event.Println err.Error]
    | .ok env =>
      Event.EvalFilePath path ::
        match janet.EvalFilePath path env with
        | .error err => [Event.Error err.Error 500, Event.Println err.Error]
        | .ok j => [Event.WriteResponse j])
  ++ [Event.DeInit]

/-- The method `Handler.templeHandler`. -/
def templeHandler (janet : Janet Env Val) (r : Request) (path : String) : List (Event Val) :=
  Event.Init ::
  (Event.RequestEnv ::
    match janet.RequestEnv r with
    | .error err => [Event.Error "Could not build request env" 500, Event.Println err.Error]
    | .ok env =>
      Event.RenderTemple path ::
        match janet.RenderTemple path env with
        | .error err => [Event.Error err.Error 500, Event.Println err.Error]
        | .ok j => [Event.WriteResponse j])
  ++ [Event.DeInit]

/-- The method `Handler.ServeHTTP`; `root` is `parsedFlags.Root`. -/
def ServeHTTP (w : World) (janet : Janet Env Val) (root : String) (r : Request) :
    List (Event Val) :=
  let path := Join root r.URLPath
  Event.Stat path ::
    if w.fs path = Node.notExist then [Event.NotFound]
    else if Ext path = ".janet" then janetHandler janet r path
    else if Ext path = ".temple" then templeHandler janet r path
    else [Event.ServeFile path]

/-- What a call writes to the response, if it writes. -/
def written (w : World) (janet : Janet Env Val) (r : Request) : Event Val → Option Response
  | .NotFound => some (.error "404 page not found" 404)
  | .ServeFile path => some (ServeFile w r path)
  | .Error msg code => some (.error msg code)
  | .WriteResponse j => some (janet.WriteResponse j)
  | _ => none

/-- The responses written during a run. -/
def responses (w : World) (janet : Janet Env Val) (r : Request) (run : List (Event Val)) :
    List Response :=
  run.filterMap (written w janet r)

end Handler

/-! ## Start-up (`main.go`, lines 52-91) -/

/-- The transports `main` can serve over. -/
inductive Transport where
  | http
  | fastcgi
  | cgi
deriving DecidableEq, Repr

/-- The calls `main` makes after flag parsing, in order. -/
inductive StartEvent where
  /-- Call `janet.SetupEmbeds(embeddedLibs, fileMappings)` -/
  | SetupEmbeds
  /-- Call `log.Printf(...)`, with the formatted line -/
  | Printf (line : String)
  /-- Call `http.ListenAndServe(addr, handler)`: listens on the TCP address and serves -/
  | ListenAndServe (addr : String)
  /-- Call `net.Listen(network, address)` -/
  | Listen (network address : String)
  /-- Call `fcgi.Serve(listen, handler)`, with what the listener is bound to -/
  | FcgiServe (network address : String)
  /-- Call `cgi.Serve(handler)` -/
  | CgiServe
  /-- Call `log.Fatal(msg)` with a string: the line is logged and the process exits with status 1 -/
  | Fatal (msg : String)
  /-- Call `log.Fatal(err)` with an error -/
  | FatalErr (err : Err)
  /-- A run-time panic: nil dereference -/
  | Panic
deriving DecidableEq, Repr

namespace StartEvent

/-- A listener is created: `http.ListenAndServe` or `net.Listen`. -/
def createsListener : StartEvent → Bool
  | ListenAndServe _ => true
  | Listen _ _ => true
  | _ => false

/-- Requests are served. -/
def serves : StartEvent → Bool
  | ListenAndServe _ => true
  | FcgiServe _ _ => true
  | CgiServe => true
  | _ => false

end StartEvent

/-- A `net.Listener` value: what it is bound to. -/
structure Listener where
  network : String
  address : String
deriving DecidableEq, Repr

/-- The request handler (`type Handler struct`); its methods do not read it. -/
structure Handler where
  Addr : String
deriving DecidableEq, Repr

/-- The conditions of the `if` / `else if` chain of `main` (lines 62, 65, 85),
on the lower-cased method; `none` is the final `else`. -/
def selectTransport (method : String) : Option Transport :=
  if method = "http" then some .http
  else if method = "fastcgi" ∨ method = "fcgi" then some .fastcgi
  else if method = "cgi" then some .cgi
  else none

/-- The statement `defer listen.Close()` for an interface variable `listen`:
the method value is evaluated when the `defer` statement executes, which for a
nil interface is a run-time panic. -/
def deferClose (listen : Option Listener) : Bool := listen.isSome

/-- The statements of the FastCGI branch of `main` that follow the `defer`
(lines 69-84): listen on the Unix socket if one is given, on the TCP address
otherwise, exit through `log.Fatal(err)` if that fails, and serve FastCGI over
the listener. -/
def serveFastCGI (w : World) (parsedFlags : Flags) (addr : String) : List StartEvent :=
  if parsedFlags.Socket.length > 0 then
    .Printf ("Starting FastCGI server on socket " ++ parsedFlags.Socket) ::
    .Listen "unix" parsedFlags.Socket ::
      match w.listenFails "unix" parsedFlags.Socket with
      | some err => [.FatalErr err]
      | none => [.FcgiServe "unix" parsedFlags.Socket]
  else
    .Printf ("Starting FastCGI server on port " ++ toString parsedFlags.Port) ::
    .Listen "tcp" addr ::
      match w.listenFails "tcp" addr with
      | some err => [.FatalErr err]
      | none => [.FcgiServe "tcp" addr]

/-- The function `main`, after `ParseFlags` has filled `parsedFlags`. -/
def main (w : World) (parsedFlags : Flags) : List StartEvent :=
  -- parsedFlags.Method = strings.ToLower(parsedFlags.Method)
  let method := ToLower w.uni parsedFlags.Method
  -- handler := Handler{Addr: fmt.Sprintf("0.0.0.0:%d", parsedFlags.Port)}
  let handler : Handler := ⟨"0.0.0.0:" ++ toString parsedFlags.Port⟩
  StartEvent.SetupEmbeds ::
    match selectTransport method with
    | some .http =>
      [.Printf ("Starting HTTP server on port " ++ toString parsedFlags.Port),
        .ListenAndServe handler.Addr]
    | some .fastcgi =>
      -- var listen net.Listener
      let listen : Option Listener := none
      -- defer listen.Close()
      if !deferClose listen then [.Panic]
      else serveFastCGI w parsedFlags handler.Addr
    | some .cgi => [.Printf "Running as CGI program", .CgiServe]
    | none => [.Fatal "Unknown method"]

/-! ## Containment of a path in a directory -/

/-- A directory name closed by a separator: `dir` itself when it already
ends in `/`, and `dir` followed by `/` otherwise. -/
def dirPrefix (dir : List Char) : List Char :=
  if dir.getLast? = some '/' then dir else dir ++ ['/']

/-- The path `path` is the directory `dir` itself or has `dir` as a directory
prefix: it starts with `dir` followed by a separator. -/
def withinDir (dir path : String) : Bool :=
  path == dir || (dirPrefix dir.data).isPrefixOf path.data

/-- The methods `main` recognises. -/
def knownMethods : List String := ["http", "fastcgi", "fcgi", "cgi"]

/-! ## Sample surroundings -/

/-- The bytes of an ASCII text. -/
def asciiBytes (s : String) : Bytes := s.data.map (fun c => c.toNat.toUInt8)

/-- A webroot `/srv/www` that holds `index.html` with content `hello`, a
style sheet, a script and a template.  Below the style sheet, a regular file,
there is nothing: a path through it fails with `ENOTDIR`. -/
def sampleWorld : World where
  fs := fun p =>
    if p = "/srv/www" then .dir
    else if p = "/srv/www/index.html" then .file (asciiBytes "hello")
    else if p = "/srv/www/style.css" then .file (asciiBytes "body {}")
    else if p = "/srv/www/style.css/x.janet" then .notDir
    else if p = "/srv/www/page.janet" then .file (asciiBytes "(print 1)")
    else if p = "/srv/www/view.temple" then .file (asciiBytes "<p>hi</p>")
    else .notExist
  serveDir := fun _ _ => .error "403 Forbidden" 403
  openFailure := fun _ _ => .error "403 Forbidden" 403
  serveConditional := fun _ _ => .error "not modified" 304
  uni := id
  listenFails := fun _ _ => none

/-- A runtime whose environment construction succeeds or fails with
`no env`, and whose evaluation and rendering succeed with the value `result`
or fail with `boom`, as chosen. -/
def sampleJanet (envOk runOk : Bool) : Janet Unit String where
  RequestEnv := fun _ => if envOk then .ok () else .error ⟨"no env"⟩
  EvalFilePath := fun _ _ => if runOk then .ok "result" else .error ⟨"boom"⟩
  RenderTemple := fun _ _ => if runOk then .ok "result" else .error ⟨"boom"⟩
  WriteResponse := fun j => .content (asciiBytes j)

/-- A plain `GET` request for a URL path. -/
def getRequest (urlPath : String) : Request := ⟨"GET", urlPath, []⟩

/-! ## Theorems -/

section HandlerTheorems

variable {Env Val : Type}

/-- Counterexample to C1 as stated: in the sample webroot `style.css` is a
regular file, so the resolved path `/srv/www/style.css/x.janet` does not
exist; `os.Stat` fails with `ENOTDIR`, `os.IsNotExist` is false, and
`ServeHTTP` goes on to `janetHandler`: the runtime is acquired and the
response is the 500 of the failed evaluation, not a 404. -/
theorem serveHTTP_missing_path_dispatched :
    (sampleWorld.fs (Join "/srv/www" "/style.css/x.janet")).missing = true ∧
    ServeHTTP sampleWorld (sampleJanet true false) "/srv/www" (getRequest "/style.css/x.janet")
      = [Event.Stat "/srv/www/style.css/x.janet", Event.Init, Event.RequestEnv,
          Event.EvalFilePath "/srv/www/style.css/x.janet", Event.Error "boom" 500,
          Event.Println "boom", Event.DeInit] ∧
    Event.Init ∈ ServeHTTP sampleWorld (sampleJanet true false) "/srv/www"
      (getRequest "/style.css/x.janet") ∧
    Event.NotFound ∉ ServeHTTP sampleWorld (sampleJanet true false) "/srv/www"
      (getRequest "/style.css/x.janet") ∧
    (responses sampleWorld (sampleJanet true false) (getRequest "/style.css/x.janet")
      (ServeHTTP sampleWorld (sampleJanet true false) "/srv/www"
        (getRequest "/style.css/x.janet"))).map Response.status = [500] := by
  decide

/-- Claim C1, amended: when `os.Stat` reports the resolved path as not
existing (its error satisfies `os.IsNotExist`), `ServeHTTP` stats the path,
calls `http.NotFound` (a 404 response) and returns: the runtime is not
acquired, nothing is evaluated, rendered or written by the runtime, and no
file is served. -/
theorem serveHTTP_missing_path (w : World) (janet : Janet Env Val) (root : String) (r : Request)
    (h : w.fs (Join root r.URLPath) = Node.notExist) :
    ServeHTTP w janet root r = [Event.Stat (Join root r.URLPath), Event.NotFound] ∧
    responses w janet r (ServeHTTP w janet root r) = [Response.error "404 page not found" 404] ∧
    (responses w janet r (ServeHTTP w janet root r)).map Response.status = [404] ∧
    ∀ e ∈ ServeHTTP w janet root r,
      e.isInit = false ∧ e.isDeInit = false ∧ e.isEval = false ∧ e.isRender = false ∧
      e.isWriteResponse = false ∧ e.isServeFile = false := by
  have hrun : ServeHTTP w janet root r = [Event.Stat (Join root r.URLPath), Event.NotFound] := by
    simp [ServeHTTP, h]
  rw [hrun]
  refine ⟨rfl, rfl, rfl, ?_⟩
  intro e he
  simp only [List.mem_cons, List.mem_singleton, List.not_mem_nil, or_false] at he
  rcases he with rfl | rfl <;> simp [Event.isInit, Event.isDeInit, Event.isEval, Event.isRender,
    Event.isWriteResponse, Event.isServeFile]

/-- Witness of C1 amended: the request `/nope.html` in the sample webroot. -/
theorem serveHTTP_missing_path_witness :
    ServeHTTP sampleWorld (sampleJanet true true) "/srv/www" (getRequest "/nope.html")
        = [Event.Stat "/srv/www/nope.html", Event.NotFound] ∧
    responses sampleWorld (sampleJanet true true) (getRequest "/nope.html")
        (ServeHTTP sampleWorld (sampleJanet true true) "/srv/www" (getRequest "/nope.html"))
        = [Response.error "404 page not found" 404] :=
  have h := serveHTTP_missing_path sampleWorld (sampleJanet true true) "/srv/www"
    (getRequest "/nope.html") (by decide)
  ⟨h.1, h.2.1⟩

/-- The run of `janetHandler` when `janet.RequestEnv` fails. -/
theorem janetHandler_env_error (janet : Janet Env Val) (r : Request) (path : String) (err : Err)
    (h : janet.RequestEnv r = .error err) :
    janetHandler janet r path =
      [Event.Init, Event.RequestEnv, Event.Error "Could not build request env" 500,
        Event.Println err.Error, Event.DeInit] := by
  simp [janetHandler, h]

/-- The run of `janetHandler` when `janet.EvalFilePath` fails. -/
theorem janetHandler_eval_error (janet : Janet Env Val) (r : Request) (path : String) (env : Env)
    (err : Err) (h : janet.RequestEnv r = .ok env) (he : janet.EvalFilePath path env = .error err) :
    janetHandler janet r path =
      [Event.Init, Event.RequestEnv, Event.EvalFilePath path, Event.Error err.Error 500,
        Event.Println err.Error, Event.DeInit] := by
  simp [janetHandler, h, he]

/-- The run of `janetHandler` when the environment is built and the script evaluates. -/
theorem janetHandler_ok (janet : Janet Env Val) (r : Request) (path : String) (env : Env)
    (j : Val) (h : janet.RequestEnv r = .ok env) (he : janet.EvalFilePath path env = .ok j) :
    janetHandler janet r path =
      [Event.Init, Event.RequestEnv, Event.EvalFilePath path, Event.WriteResponse j,
        Event.DeInit] := by
  simp [janetHandler, h, he]

/-- The run of `templeHandler` when `janet.RequestEnv` fails. -/
theorem templeHandler_env_error (janet : Janet Env Val) (r : Request) (path : String) (err : Err)
    (h : janet.RequestEnv r = .error err) :
    templeHandler janet r path =
      [Event.Init, Event.RequestEnv, Event.Error "Could not build request env" 500,
        Event.Println err.Error, Event.DeInit] := by
  simp [templeHandler, h]

/-- The run of `templeHandler` when `janet.RenderTemple` fails. -/
theorem templeHandler_render_error (janet : Janet Env Val) (r : Request) (path : String)
    (env : Env) (err : Err) (h : janet.RequestEnv r = .ok env)
    (he : janet.RenderTemple path env = .error err) :
    templeHandler janet r path =
      [Event.Init, Event.RequestEnv, Event.RenderTemple path, Event.Error err.Error 500,
        Event.Println err.Error, Event.DeInit] := by
  simp [templeHandler, h, he]

/-- The run of `templeHandler` when the environment is built and the template renders. -/
theorem templeHandler_ok (janet : Janet Env Val) (r : Request) (path : String) (env : Env)
    (j : Val) (h : janet.RequestEnv r = .ok env) (he : janet.RenderTemple path env = .ok j) :
    templeHandler janet r path =
      [Event.Init, Event.RequestEnv, Event.RenderTemple path, Event.WriteResponse j,
        Event.DeInit] := by
  simp [templeHandler, h, he]

/-- The three shapes a run of `janetHandler` can have. -/
theorem janetHandler_cases (janet : Janet Env Val) (r : Request) (path : String) :
    (∃ err : Err, janetHandler janet r path =
      [Event.Init, Event.RequestEnv, Event.Error "Could not build request env" 500,
        Event.Println err.Error, Event.DeInit]) ∨
    (∃ err : Err, janetHandler janet r path =
      [Event.Init, Event.RequestEnv, Event.EvalFilePath path, Event.Error err.Error 500,
        Event.Println err.Error, Event.DeInit]) ∨
    (∃ j, janetHandler janet r path =
      [Event.Init, Event.RequestEnv, Event.EvalFilePath path, Event.WriteResponse j,
        Event.DeInit]) := by
  rcases h : janet.RequestEnv r with err | env
  · exact Or.inl ⟨err, janetHandler_env_error janet r path err h⟩
  · rcases he : janet.EvalFilePath path env with err | j
    · exact Or.inr (Or.inl ⟨err, janetHandler_eval_error janet r path env err h he⟩)
    · exact Or.inr (Or.inr ⟨j, janetHandler_ok janet r path env j h he⟩)

/-- The three shapes a run of `templeHandler` can have. -/
theorem templeHandler_cases (janet : Janet Env Val) (r : Request) (path : String) :
    (∃ err : Err, templeHandler janet r path =
      [Event.Init, Event.RequestEnv, Event.Error "Could not build request env" 500,
        Event.Println err.Error, Event.DeInit]) ∨
    (∃ err : Err, templeHandler janet r path =
      [Event.Init, Event.RequestEnv, Event.RenderTemple path, Event.Error err.Error 500,
        Event.Println err.Error, Event.DeInit]) ∨
    (∃ j, templeHandler janet r path =
      [Event.Init, Event.RequestEnv, Event.RenderTemple path, Event.WriteResponse j,
        Event.DeInit]) := by
  rcases h : janet.RequestEnv r with err | env
  · exact Or.inl ⟨err, templeHandler_env_error janet r path err h⟩
  · rcases he : janet.RenderTemple path env with err | j
    · exact Or.inr (Or.inl ⟨err, templeHandler_render_error janet r path env err h he⟩)
    · exact Or.inr (Or.inr ⟨j, templeHandler_ok janet r path env j h he⟩)

/-- Claim C2: `janetHandler` and `templeHandler` acquire the runtime exactly
once, as their first call, and release it exactly once, as their last call,
on each of their exit paths: failure of `janet.RequestEnv`, failure of
`janet.EvalFilePath` or `janet.RenderTemple`, and success.  The counts of
`janet.Init` and `janet.DeInit` are both one, and the acquisition comes before
the release. -/
theorem handlers_init_deinit_once (janet : Janet Env Val) (r : Request) (path : String) :
    ((janetHandler janet r path).countP Event.isInit = 1 ∧
      (janetHandler janet r path).countP Event.isDeInit = 1 ∧
      (janetHandler janet r path).head? = some Event.Init ∧
      (janetHandler janet r path).getLast? = some Event.DeInit ∧
      2 ≤ (janetHandler janet r path).length) ∧
    ((templeHandler janet r path).countP Event.isInit = 1 ∧
      (templeHandler janet r path).countP Event.isDeInit = 1 ∧
      (templeHandler janet r path).head? = some Event.Init ∧
      (templeHandler janet r path).getLast? = some Event.DeInit ∧
      2 ≤ (templeHandler janet r path).length) := by
  constructor
  · rcases janetHandler_cases janet r path with ⟨err, h⟩ | ⟨err, h⟩ | ⟨j, h⟩ <;> rw [h] <;>
      simp [Event.isInit, Event.isDeInit, List.countP_cons]
  · rcases templeHandler_cases janet r path with ⟨err, h⟩ | ⟨err, h⟩ | ⟨j, h⟩ <;> rw [h] <;>
      simp [Event.isInit, Event.isDeInit, List.countP_cons]

/-- No run of `templeHandler` evaluates a script. -/
theorem templeHandler_no_eval (janet : Janet Env Val) (r : Request) (path : String) :
    ∀ e ∈ templeHandler janet r path, e.isEval = false := by
  rcases templeHandler_cases janet r path with ⟨err, h⟩ | ⟨err, h⟩ | ⟨j, h⟩ <;> rw [h] <;>
    simp [Event.isEval]

/-- No run of `janetHandler` renders a template. -/
theorem janetHandler_no_render (janet : Janet Env Val) (r : Request) (path : String) :
    ∀ e ∈ janetHandler janet r path, e.isRender = false := by
  rcases janetHandler_cases janet r path with ⟨err, h⟩ | ⟨err, h⟩ | ⟨j, h⟩ <;> rw [h] <;>
    simp [Event.isRender]

/-- Claim C3: for a resolved path that exists (`os.Stat` does not report it
missing), the extension alone decides the dispatch.  With `.temple` the run is
that of `templeHandler` on the resolved path, the render path: it never calls
`janet.EvalFilePath`, and calls `janet.RenderTemple` once the request
environment is built.  With `.janet` the run is that of `janetHandler`, the
evaluate path: it never calls `janet.RenderTemple`, and calls
`janet.EvalFilePath` once the request environment is built.  With any other
extension the file is handed to `http.ServeFile`: nothing is evaluated or
rendered and the runtime is not acquired. -/
theorem serveHTTP_dispatch_by_extension (w : World) (janet : Janet Env Val) (root : String)
    (r : Request) (hex : w.fs (Join root r.URLPath) ≠ Node.notExist) :
    (Ext (Join root r.URLPath) = ".temple" →
      ServeHTTP w janet root r
        = Event.Stat (Join root r.URLPath) :: templeHandler janet r (Join root r.URLPath) ∧
      (∀ e ∈ ServeHTTP w janet root r, e.isEval = false) ∧
      (∀ env, janet.RequestEnv r = .ok env →
        Event.RenderTemple (Join root r.URLPath) ∈ ServeHTTP w janet root r)) ∧
    (Ext (Join root r.URLPath) = ".janet" →
      ServeHTTP w janet root r
        = Event.Stat (Join root r.URLPath) :: janetHandler janet r (Join root r.URLPath) ∧
      (∀ e ∈ ServeHTTP w janet root r, e.isRender = false) ∧
      (∀ env, janet.RequestEnv r = .ok env →
        Event.EvalFilePath (Join root r.URLPath) ∈ ServeHTTP w janet root r)) ∧
    (Ext (Join root r.URLPath) ≠ ".temple" → Ext (Join root r.URLPath) ≠ ".janet" →
      ServeHTTP w janet root r
        = [Event.Stat (Join root r.URLPath), Event.ServeFile (Join root r.URLPath)] ∧
      (∀ e ∈ ServeHTTP w janet root r,
        e.isEval = false ∧ e.isRender = false ∧ e.isInit = false)) := by
  refine ⟨?_, ?_, ?_⟩
  · intro ht
    have hrun : ServeHTTP w janet root r
        = Event.Stat (Join root r.URLPath) :: templeHandler janet r (Join root r.URLPath) := by
      have hne : ¬ (".temple" : String) = ".janet" := by decide
      simp [ServeHTTP, hex, ht, hne]
    refine ⟨hrun, ?_, ?_⟩
    · intro e he
      rw [hrun] at he
      rcases List.mem_cons.1 he with rfl | he
      · rfl
      · exact templeHandler_no_eval janet r _ e he
    · intro env henv
      rw [hrun]
      rcases hr : janet.RenderTemple (Join root r.URLPath) env with err | j
      · rw [templeHandler_render_error janet r _ env err henv hr]; simp
      · rw [templeHandler_ok janet r _ env j henv hr]; simp
  · intro hj
    have hrun : ServeHTTP w janet root r
        = Event.Stat (Join root r.URLPath) :: janetHandler janet r (Join root r.URLPath) := by
      simp [ServeHTTP, hex, hj]
    refine ⟨hrun, ?_, ?_⟩
    · intro e he
      rw [hrun] at he
      rcases List.mem_cons.1 he with rfl | he
      · rfl
      · exact janetHandler_no_render janet r _ e he
    · intro env henv
      rw [hrun]
      rcases hr : janet.EvalFilePath (Join root r.URLPath) env with err | j
      · rw [janetHandler_eval_error janet r _ env err henv hr]; simp
      · rw [janetHandler_ok janet r _ env j henv hr]; simp
  · intro ht hj
    have hrun : ServeHTTP w janet root r
        = [Event.Stat (Join root r.URLPath), Event.ServeFile (Join root r.URLPath)] := by
      simp [ServeHTTP, hex, ht, hj]
    refine ⟨hrun, ?_⟩
    intro e he
    rw [hrun] at he
    simp only [List.mem_cons, List.mem_singleton, List.not_mem_nil, or_false] at he
    rcases he with rfl | rfl <;> simp [Event.isInit, Event.isEval, Event.isRender]

/-- Witness of C3: the template `/view.temple` of the sample webroot goes to
`templeHandler`, which renders it. -/
theorem serveHTTP_dispatch_by_extension_witness :
    ServeHTTP sampleWorld (sampleJanet true true) "/srv/www" (getRequest "/view.temple")
      = [Event.Stat "/srv/www/view.temple", Event.Init, Event.RequestEnv,
          Event.RenderTemple "/srv/www/view.temple", Event.WriteResponse "result",
          Event.DeInit] :=
  ((serveHTTP_dispatch_by_extension sampleWorld (sampleJanet true true) "/srv/www"
    (getRequest "/view.temple") (by decide)).1 (by decide)).1.trans (by decide)

/-- Claim C5: when the request environment is built and the evaluation (in
`janetHandler`) or the rendering (in `templeHandler`) returns an error, the
only response written is `http.Error` with the text of that error and status
500, `janet.WriteResponse` is not called, and the runtime is released exactly
once. -/
theorem handlers_run_failure (w : World) (janet : Janet Env Val) (r : Request) (path : String)
    (env : Env) (err : Err) (henv : janet.RequestEnv r = .ok env) :
    (janet.EvalFilePath path env = .error err →
      janetHandler janet r path =
        [Event.Init, Event.RequestEnv, Event.EvalFilePath path, Event.Error err.Error 500,
          Event.Println err.Error, Event.DeInit] ∧
      responses w janet r (janetHandler janet r path) = [Response.error err.Error 500] ∧
      (responses w janet r (janetHandler janet r path)).map Response.status = [500] ∧
      (janetHandler janet r path).countP Event.isWriteResponse = 0 ∧
      (janetHandler janet r path).countP Event.isDeInit = 1) ∧
    (janet.RenderTemple path env = .error err →
      templeHandler janet r path =
        [Event.Init, Event.RequestEnv, Event.RenderTemple path, Event.Error err.Error 500,
          Event.Println err.Error, Event.DeInit] ∧
      responses w janet r (templeHandler janet r path) = [Response.error err.Error 500] ∧
      (responses w janet r (templeHandler janet r path)).map Response.status = [500] ∧
      (templeHandler janet r path).countP Event.isWriteResponse = 0 ∧
      (templeHandler janet r path).countP Event.isDeInit = 1) := by
  constructor
  · intro he
    rw [janetHandler_eval_error janet r path env err henv he]
    simp [responses, written, Response.status, Event.isWriteResponse, Event.isDeInit,
      List.countP_cons]
  · intro he
    rw [templeHandler_render_error janet r path env err henv he]
    simp [responses, written, Response.status, Event.isWriteResponse, Event.isDeInit,
      List.countP_cons]

/-- Witness of C5: a script and a template whose run fails with `boom`. -/
theorem handlers_run_failure_witness :
    responses sampleWorld (sampleJanet true false) (getRequest "/page.janet")
        (janetHandler (sampleJanet true false) (getRequest "/page.janet") "/srv/www/page.janet")
      = [Response.error "boom" 500] ∧
    responses sampleWorld (sampleJanet true false) (getRequest "/view.temple")
        (templeHandler (sampleJanet true false) (getRequest "/view.temple")
          "/srv/www/view.temple")
      = [Response.error "boom" 500] :=
  ⟨((handlers_run_failure sampleWorld (sampleJanet true false) (getRequest "/page.janet")
      "/srv/www/page.janet" () ⟨"boom"⟩ rfl).1 rfl).2.1,
   ((handlers_run_failure sampleWorld (sampleJanet true false) (getRequest "/view.temple")
      "/srv/www/view.temple" () ⟨"boom"⟩ rfl).2 rfl).2.1⟩

/-- Claim C6: when `janet.RequestEnv` fails, either handler answers with
`http.Error` carrying the fixed text `Could not build request env` and status
500, whatever the error is; it calls neither `janet.EvalFilePath` nor
`janet.RenderTemple` nor `janet.WriteResponse`, and it still releases the
runtime. -/
theorem handlers_env_failure (w : World) (janet : Janet Env Val) (r : Request) (path : String)
    (err : Err) (henv : janet.RequestEnv r = .error err) :
    (janetHandler janet r path =
        [Event.Init, Event.RequestEnv, Event.Error "Could not build request env" 500,
          Event.Println err.Error, Event.DeInit] ∧
      responses w janet r (janetHandler janet r path)
        = [Response.error "Could not build request env" 500] ∧
      (∀ e ∈ janetHandler janet r path,
        e.isEval = false ∧ e.isRender = false ∧ e.isWriteResponse = false) ∧
      (janetHandler janet r path).countP Event.isDeInit = 1) ∧
    (templeHandler janet r path =
        [Event.Init, Event.RequestEnv, Event.Error "Could not build request env" 500,
          Event.Println err.Error, Event.DeInit] ∧
      responses w janet r (templeHandler janet r path)
        = [Response.error "Could not build request env" 500] ∧
      (∀ e ∈ templeHandler janet r path,
        e.isEval = false ∧ e.isRender = false ∧ e.isWriteResponse = false) ∧
      (templeHandler janet r path).countP Event.isDeInit = 1) := by
  constructor
  · rw [janetHandler_env_error janet r path err henv]
    simp [responses, written, Event.isEval, Event.isRender, Event.isWriteResponse,
      Event.isDeInit, List.countP_cons]
  · rw [templeHandler_env_error janet r path err henv]
    simp [responses, written, Event.isEval, Event.isRender, Event.isWriteResponse,
      Event.isDeInit, List.countP_cons]

/-- Witness of C6: a runtime whose environment construction fails with `no env`. -/
theorem handlers_env_failure_witness :
    janetHandler (sampleJanet false true) (getRequest "/page.janet") "/srv/www/page.janet" =
      [Event.Init, Event.RequestEnv, Event.Error "Could not build request env" 500,
        Event.Println "no env", Event.DeInit] :=
  (handlers_env_failure sampleWorld (sampleJanet false true) (getRequest "/page.janet")
    "/srv/www/page.janet" ⟨"no env"⟩ rfl).1.1

/-- Claim C10: when the request environment is built and the evaluation (or
the rendering) succeeds, the calls are exactly: acquire, build the
environment, evaluate (or render), write the result, release.  The result is
written once, before the release, and no `http.Error` is written. -/
theorem handlers_success (janet : Janet Env Val) (r : Request) (path : String)
    (env : Env) (j : Val) (henv : janet.RequestEnv r = .ok env) :
    (janet.EvalFilePath path env = .ok j →
      janetHandler janet r path =
        [Event.Init, Event.RequestEnv, Event.EvalFilePath path, Event.WriteResponse j,
          Event.DeInit] ∧
      (janetHandler janet r path).countP Event.isWriteResponse = 1 ∧
      (janetHandler janet r path).countP Event.isError500 = 0) ∧
    (janet.RenderTemple path env = .ok j →
      templeHandler janet r path =
        [Event.Init, Event.RequestEnv, Event.RenderTemple path, Event.WriteResponse j,
          Event.DeInit] ∧
      (templeHandler janet r path).countP Event.isWriteResponse = 1 ∧
      (templeHandler janet r path).countP Event.isError500 = 0) := by
  constructor
  · intro he
    rw [janetHandler_ok janet r path env j henv he]
    simp [Event.isWriteResponse, Event.isError500, List.countP_cons]
  · intro he
    rw [templeHandler_ok janet r path env j henv he]
    simp [Event.isWriteResponse, Event.isError500, List.countP_cons]

/-- Witness of C10: a script and a template whose run yields `result`. -/
theorem handlers_success_witness :
    janetHandler (sampleJanet true true) (getRequest "/page.janet") "/srv/www/page.janet" =
      [Event.Init, Event.RequestEnv, Event.EvalFilePath "/srv/www/page.janet",
        Event.WriteResponse "result", Event.DeInit] ∧
    templeHandler (sampleJanet true true) (getRequest "/view.temple") "/srv/www/view.temple" =
      [Event.Init, Event.RequestEnv, Event.RenderTemple "/srv/www/view.temple",
        Event.WriteResponse "result", Event.DeInit] :=
  ⟨((handlers_success (sampleJanet true true) (getRequest "/page.janet")
      "/srv/www/page.janet" () "result" rfl).1 rfl).1,
   ((handlers_success (sampleJanet true true) (getRequest "/view.temple")
      "/srv/www/view.temple" () "result" rfl).2 rfl).1⟩

end HandlerTheorems

/-! ### Path resolution -/

theorem splitSlash_ne_nil (l : List Char) : splitSlash l ≠ [] := by
  cases l with
  | nil => simp [splitSlash]
  | cons c cs =>
    unfold splitSlash
    split
    · simp
    · split <;> simp

/-- Splitting distributes over a separator. -/
theorem splitSlash_append (a b : List Char) :
    splitSlash (a ++ '/' :: b) = splitSlash a ++ splitSlash b := by
  induction a with
  | nil => simp [splitSlash]
  | cons c cs ih =>
    by_cases hc : c = '/'
    · simp [splitSlash, hc, ih]
    · have hne := splitSlash_ne_nil cs
      rcases hs : splitSlash cs with _ | ⟨s, ss⟩
      · exact absurd hs hne
      · simp [splitSlash, hc, ih, hs]

/-- The loop of a `..` element does not go below `dotdot`. -/
theorem le_backtrack (buf : List Char) (dotdot w : Nat) (h : dotdot ≤ w) :
    dotdot ≤ backtrack buf dotdot w := by
  induction w with
  | zero => simpa [backtrack] using h
  | succ w ih =>
    unfold backtrack
    split
    · rename_i hc
      exact ih (by omega)
    · exact h

/-- On a rooted path the buffer of `filepath.Clean` always starts with the
separator and `dotdot` stays at 1. -/
theorem cleanStep_rooted (s : CleanBuf) (elem : List Char)
    (hd : s.dotdot = 1) (hh : s.out.head? = some '/') :
    (cleanStep true s elem).dotdot = 1 ∧ (cleanStep true s elem).out.head? = some '/' := by
  unfold cleanStep
  split
  · exact ⟨hd, hh⟩
  split
  · exact ⟨hd, hh⟩
  split
  · split
    · rename_i hlen
      refine ⟨hd, ?_⟩
      have hb := le_backtrack s.out s.dotdot (s.out.length - 1) (by omega)
      simp only [List.head?_take]
      rw [if_neg (by omega)]
      exact hh
    · simpa using ⟨hd, hh⟩
  · refine ⟨hd, ?_⟩
    have hne : s.out ≠ [] := by
      intro h0; rw [h0] at hh; simp at hh
    simp only []
    split
    · rw [List.append_assoc, List.head?_append_of_ne_nil _ hne]; exact hh
    · rw [List.head?_append_of_ne_nil _ hne]; exact hh

theorem foldl_cleanStep_rooted (segs : List (List Char)) (s : CleanBuf)
    (hd : s.dotdot = 1) (hh : s.out.head? = some '/') :
    (segs.foldl (cleanStep true) s).out.head? = some '/' := by
  induction segs generalizing s with
  | nil => exact hh
  | cons e es ih =>
    have h := cleanStep_rooted s e hd hh
    exact ih _ h.1 h.2

theorem prefix_dirPrefix (o : List Char) : o <+: dirPrefix o := by
  unfold dirPrefix
  split
  · exact List.prefix_rfl
  · exact List.prefix_append _ _

/-- An element other than `..` only appends to a non-empty buffer, and what
it appends starts with a separator unless the buffer already ends in one. -/
theorem cleanStep_grow (rooted : Bool) (s : CleanBuf) (elem : List Char)
    (hne : s.out ≠ []) (hh : rooted = true → s.out.head? = some '/')
    (hdd : elem ≠ ['.', '.']) :
    (cleanStep rooted s elem).out ≠ [] ∧
    (rooted = true → (cleanStep rooted s elem).out.head? = some '/') ∧
    ((cleanStep rooted s elem).out = s.out ∨
      dirPrefix s.out <+: (cleanStep rooted s elem).out) := by
  unfold cleanStep
  split
  · exact ⟨hne, hh, Or.inl rfl⟩
  split
  · exact ⟨hne, hh, Or.inl rfl⟩
  try rw [if_neg hdd]
  simp only []
  split
  · rename_i hc
    refine ⟨by simp [hne], ?_, Or.inr ?_⟩
    · intro hr
      rw [List.append_assoc, List.head?_append_of_ne_nil _ hne]; exact hh hr
    · unfold dirPrefix
      split
      · rw [List.append_assoc]; exact List.prefix_append _ _
      · exact List.prefix_append _ _
  · rename_i hc
    refine ⟨by simp [hne], ?_, Or.inr ?_⟩
    · intro hr
      rw [List.head?_append_of_ne_nil _ hne]; exact hh hr
    · cases rooted with
      | false =>
        exfalso
        apply hc
        have : s.out.length ≠ 0 := by simpa using hne
        simp [this]
      | true =>
        have hlen : s.out.length = 1 := by
          by_contra hl
          apply hc
          simp [hl]
        obtain ⟨c, hc1⟩ := List.length_eq_one.1 hlen
        have hhd := hh rfl
        rw [hc1] at hhd
        simp at hhd
        subst hhd
        rw [hc1]
        unfold dirPrefix
        simp

theorem foldl_cleanStep_grow (rooted : Bool) (segs : List (List Char)) (s : CleanBuf)
    (hne : s.out ≠ []) (hh : rooted = true → s.out.head? = some '/')
    (hdd : ['.', '.'] ∉ segs) :
    (segs.foldl (cleanStep rooted) s).out = s.out ∨
      dirPrefix s.out <+: (segs.foldl (cleanStep rooted) s).out := by
  induction segs generalizing s with
  | nil => exact Or.inl rfl
  | cons e es ih =>
    have he : e ≠ ['.', '.'] := fun h => hdd (by simp [h])
    have hes : ['.', '.'] ∉ es := fun h => hdd (List.mem_cons_of_mem _ h)
    obtain ⟨hne1, hh1, hstep⟩ := cleanStep_grow rooted s e hne hh he
    simp only [List.foldl_cons]
    rcases ih (cleanStep rooted s e) hne1 hh1 hes with hfin | hfin
    · rcases hstep with h1 | h1
      · exact Or.inl (hfin.trans h1)
      · exact Or.inr (hfin ▸ h1)
    · rcases hstep with h1 | h1
      · rw [h1] at hfin; exact Or.inr hfin
      · exact Or.inr (h1.trans ((prefix_dirPrefix _).trans hfin))

/-- The main loop of `filepath.Clean` on a rooted path leaves a buffer that
starts with the separator. -/
theorem cleanLoop_rooted (path : List Char) (h : path.head? = some '/') :
    (cleanLoop path).out.head? = some '/' := by
  unfold cleanLoop
  simp only [h, beq_self_eq_true]
  exact foldl_cleanStep_rooted _ _ rfl rfl

/-- The main loop of `filepath.Clean` on `a/b` continues the loop on `a`. -/
theorem cleanLoop_join (a b : List Char) (ha : a ≠ []) :
    cleanLoop (a ++ '/' :: b)
      = (splitSlash b).foldl (cleanStep (a.head? == some '/')) (cleanLoop a) := by
  have hhead : (a ++ '/' :: b).head? = a.head? := List.head?_append_of_ne_nil _ ha
  unfold cleanLoop
  rw [hhead, splitSlash_append, List.foldl_append]

/-- Resolution without `..` elements: the cleaned join of a directory whose
cleaned name is not `.` and a path without `..` elements is the cleaned
directory or continues it after a separator. -/
theorem cleanChars_join_within (a b : List Char)
    (ha : a.head? = some '/' ∨ cleanChars a ≠ ['.'])
    (hdd : ['.', '.'] ∉ splitSlash b) :
    cleanChars (a ++ '/' :: b) = cleanChars a ∨
      dirPrefix (cleanChars a) <+: cleanChars (a ++ '/' :: b) := by
  have hane : a ≠ [] := by
    rintro rfl
    rcases ha with h | h
    · simp at h
    · exact h (by simp [cleanChars])
  have hrooted : (a.head? == some '/') = true → (cleanLoop a).out.head? = some '/' := by
    intro h
    exact cleanLoop_rooted a (by simpa using h)
  have hout : (cleanLoop a).out ≠ [] := by
    rcases ha with h | h
    · intro h0
      have := cleanLoop_rooted a h
      rw [h0] at this
      simp at this
    · intro h0
      apply h
      simp [cleanChars, hane, h0]
  have hca : cleanChars a = (cleanLoop a).out := by
    have : (cleanLoop a).out.length ≠ 0 := by simpa using hout
    simp [cleanChars, hane, this]
  have hgrow := foldl_cleanStep_grow (a.head? == some '/') (splitSlash b) (cleanLoop a)
    hout hrooted hdd
  rw [← cleanLoop_join a b hane] at hgrow
  have hfin : (cleanLoop (a ++ '/' :: b)).out ≠ [] := by
    rcases hgrow with h | h
    · rw [h]; exact hout
    · intro h0
      rw [h0] at h
      have h1 := (prefix_dirPrefix (cleanLoop a).out).trans h
      exact hout (List.prefix_nil.1 h1)
  have hcj : cleanChars (a ++ '/' :: b) = (cleanLoop (a ++ '/' :: b)).out := by
    have : (cleanLoop (a ++ '/' :: b)).out.length ≠ 0 := by simpa using hfin
    simp [cleanChars, this]
  rw [hcj, hca]
  exact hgrow

/-- Counterexample to C9 as stated: with the webroot `/srv/www`, the request
path `/../../etc/passwd` resolves to `/etc/passwd`, which is neither the
webroot nor below it; `ServeHTTP` goes on to stat that path. -/
theorem serveHTTP_path_escapes_webroot :
    Join "/srv/www" "/../../etc/passwd" = "/etc/passwd" ∧
    (ServeHTTP sampleWorld (sampleJanet true true) "/srv/www"
      (getRequest "/../../etc/passwd")).head? = some (Event.Stat "/etc/passwd") ∧
    withinDir "/srv/www" (Join "/srv/www" "/../../etc/passwd") = false := by
  decide

/-- Claim C9, amended: `ServeHTTP` resolves the cleaned join of the webroot
and the request path, with no containment check.  When the webroot is
absolute (or, more generally, its cleaned name is not `.`) and the request
path has no `..` element, the resolved path is the cleaned webroot itself or
has it as a directory prefix; a webroot that is already clean is its own
cleaned form. -/
theorem serveHTTP_path_within_webroot {Env Val : Type} (w : World) (janet : Janet Env Val)
    (root : String) (r : Request)
    (hroot : root.data.head? = some '/' ∨ Clean root ≠ ".")
    (hdd : ['.', '.'] ∉ splitSlash r.URLPath.data) :
    (ServeHTTP w janet root r).head? = some (Event.Stat (Join root r.URLPath)) ∧
    withinDir (Clean root) (Join root r.URLPath) = true ∧
    (Clean root = root → withinDir root (Join root r.URLPath) = true) := by
  refine ⟨by simp [ServeHTTP], ?_⟩
  suffices hw : withinDir (Clean root) (Join root r.URLPath) = true from
    ⟨hw, fun hc => by rw [hc] at hw; exact hw⟩
  have ha : root.data.head? = some '/' ∨ cleanChars root.data ≠ ['.'] := by
    rcases hroot with h | h
    · exact Or.inl h
    · refine Or.inr (fun h0 => h ?_)
      exact String.ext (by simpa [Clean] using h0)
  have hne : root ≠ "" := by
    rintro rfl
    rcases ha with h | h
    · simp at h
    · exact h (by decide)
  have hjoin : Join root r.URLPath = ⟨cleanChars (root.data ++ '/' :: r.URLPath.data)⟩ := by
    simp [Join, hne, Clean]
  unfold withinDir
  rw [hjoin]
  rcases cleanChars_join_within root.data r.URLPath.data ha hdd with h | h
  · simp [Clean, h]
  · have := List.isPrefixOf_iff_prefix.2 h
    simp [Clean, this]

/-- Witness of C9 amended: a request path with empty and `.` elements below
the webroot `/srv/www`. -/
theorem serveHTTP_path_within_webroot_witness :
    withinDir (Clean "/srv/www") (Join "/srv/www" (getRequest "//a/./page.janet").URLPath)
      = true :=
  (serveHTTP_path_within_webroot sampleWorld (sampleJanet true true) "/srv/www"
    (getRequest "//a/./page.janet") (by decide) (by decide)).2.1

/-! ### Static files -/

/-- Counterexample to C4 as stated: the sample webroot holds `index.html`
with content `hello`, yet the plain request `GET /index.html` is answered by
`http.ServeFile` with a redirect to `./` (status 301), not with status 200 and
the body `hello`. -/
theorem serveHTTP_index_html_redirect :
    sampleWorld.fs (Join "/srv/www" "/index.html") = Node.file (asciiBytes "hello") ∧
    Ext (Join "/srv/www" "/index.html") = ".html" ∧
    ServeHTTP sampleWorld (sampleJanet true true) "/srv/www" (getRequest "/index.html")
      = [Event.Stat "/srv/www/index.html", Event.ServeFile "/srv/www/index.html"] ∧
    responses sampleWorld (sampleJanet true true) (getRequest "/index.html")
        (ServeHTTP sampleWorld (sampleJanet true true) "/srv/www" (getRequest "/index.html"))
      = [Response.redirect "./"] ∧
    (responses sampleWorld (sampleJanet true true) (getRequest "/index.html")
        (ServeHTTP sampleWorld (sampleJanet true true) "/srv/www" (getRequest "/index.html"))).map
      Response.status = [301] ∧
    responses sampleWorld (sampleJanet true true) (getRequest "/index.html")
        (ServeHTTP sampleWorld (sampleJanet true true) "/srv/www" (getRequest "/index.html"))
      ≠ [Response.content (asciiBytes "hello")] := by
  decide

/-- Claim C4, amended: an existing regular file whose extension is neither
`.janet` nor `.temple` is handed to `http.ServeFile` and to nothing else.  For
a request whose URL path has no `..` element: if the URL path does not end in
`/index.html` and the request is a plain `GET`, the response has status 200
and its body is the content of the file; if the URL path ends in
`/index.html`, the response is a redirect to `./` (status 301) instead. -/
theorem serveHTTP_static_file {Env Val : Type} (w : World) (janet : Janet Env Val)
    (root : String) (r : Request) (content : Bytes)
    (hfile : w.fs (Join root r.URLPath) = Node.file content)
    (hj : Ext (Join root r.URLPath) ≠ ".janet") (ht : Ext (Join root r.URLPath) ≠ ".temple")
    (hdd : containsDotDot r.URLPath = false) :
    ServeHTTP w janet root r
      = [Event.Stat (Join root r.URLPath), Event.ServeFile (Join root r.URLPath)] ∧
    (HasSuffix r.URLPath "/index.html" = false → plainGet r = true →
      responses w janet r (ServeHTTP w janet root r) = [Response.content content] ∧
      (responses w janet r (ServeHTTP w janet root r)).map Response.status = [200]) ∧
    (HasSuffix r.URLPath "/index.html" = true →
      responses w janet r (ServeHTTP w janet root r) = [Response.redirect "./"] ∧
      (responses w janet r (ServeHTTP w janet root r)).map Response.status = [301]) := by
  have hrun : ServeHTTP w janet root r
      = [Event.Stat (Join root r.URLPath), Event.ServeFile (Join root r.URLPath)] := by
    simp [ServeHTTP, hfile, hj, ht]
  rw [hrun]
  refine ⟨rfl, ?_, ?_⟩
  · intro hidx hget
    simp [responses, written, ServeFile, hdd, hidx, hfile, hget, Response.status]
  · intro hidx
    simp [responses, written, ServeFile, hdd, hidx, Response.status]

/-- Witness of C4 amended: the style sheet of the sample webroot is sent as it
is on disk. -/
theorem serveHTTP_static_file_witness :
    responses sampleWorld (sampleJanet true true) (getRequest "/style.css")
        (ServeHTTP sampleWorld (sampleJanet true true) "/srv/www" (getRequest "/style.css"))
      = [Response.content (asciiBytes "body {}")] :=
  ((serveHTTP_static_file sampleWorld (sampleJanet true true) "/srv/www"
    (getRequest "/style.css") (asciiBytes "body {}") (by decide) (by decide) (by decide)
    (by decide)).2.1 (by decide) (by decide)).1

/-! ### Start-up -/

/-- The final `else` of `main` is taken exactly for the methods that are not
recognised. -/
theorem selectTransport_eq_none (method : String) :
    selectTransport method = none ↔ method ∉ knownMethods := by
  unfold selectTransport knownMethods
  by_cases h1 : method = "http"
  · simp [h1]
  by_cases h2 : method = "fastcgi"
  · simp [h2]
  by_cases h3 : method = "fcgi"
  · simp [h3]
  by_cases h4 : method = "cgi"
  · simp [h4]
  simp [h1, h2, h3, h4]

/-- The run of `main` on a method that is not recognised. -/
theorem main_unknown (w : World) (flags : Flags)
    (h : selectTransport (ToLower w.uni flags.Method) = none) :
    main w flags = [StartEvent.SetupEmbeds, StartEvent.Fatal "Unknown method"] := by
  simp [main, h]

/-- The run of `main` on a recognised method does not report an unknown method. -/
theorem main_known (w : World) (flags : Flags) (t : Transport)
    (h : selectTransport (ToLower w.uni flags.Method) = some t) :
    StartEvent.Fatal "Unknown method" ∉ main w flags := by
  cases t <;> simp [main, h, deferClose]

/-- The run of `main` on the method `http`. -/
theorem main_http (w : World) (flags : Flags) (h : ToLower w.uni flags.Method = "http") :
    main w flags =
      [StartEvent.SetupEmbeds,
        StartEvent.Printf ("Starting HTTP server on port " ++ toString flags.Port),
        StartEvent.ListenAndServe ("0.0.0.0:" ++ toString flags.Port)] := by
  have hs : selectTransport "http" = some Transport.http := by decide
  simp [main, h, hs]

/-- The run of `main` on the method `cgi`. -/
theorem main_cgi (w : World) (flags : Flags) (h : ToLower w.uni flags.Method = "cgi") :
    main w flags =
      [StartEvent.SetupEmbeds, StartEvent.Printf "Running as CGI program",
        StartEvent.CgiServe] := by
  have hs : selectTransport "cgi" = some Transport.cgi := by decide
  simp [main, h, hs]

/-- The run of `main` on the methods `fastcgi` and `fcgi`. -/
theorem main_fastcgi (w : World) (flags : Flags)
    (h : ToLower w.uni flags.Method = "fastcgi" ∨ ToLower w.uni flags.Method = "fcgi") :
    main w flags = [StartEvent.SetupEmbeds, StartEvent.Panic] := by
  have hs1 : selectTransport "fastcgi" = some Transport.fastcgi := by decide
  have hs2 : selectTransport "fcgi" = some Transport.fastcgi := by decide
  rcases h with h | h
  · simp [main, h, hs1, deferClose]
  · simp [main, h, hs2, deferClose]

/-- Claim C7, the code by method.  On the lower-cased method `http`, `main`
listens and serves HTTP; on `cgi` it serves CGI; on any method other than
`http`, `fastcgi`, `fcgi`, `cgi` it calls `log.Fatal("Unknown method")` right
after `janet.SetupEmbeds`, with no listener and no serving call.  On `fastcgi`
and `fcgi` (so also for `FastCGI`) it enters the FastCGI branch, where
`defer listen.Close()` on the nil listener panics: the method is not reported
as unknown, yet no transport is started.  So `main` starts a transport
exactly for `http` and `cgi`, not for all four recognised methods. -/
theorem main_run_by_method (w : World) (flags : Flags) :
    (ToLower w.uni flags.Method = "http" →
      main w flags =
        [StartEvent.SetupEmbeds,
          StartEvent.Printf ("Starting HTTP server on port " ++ toString flags.Port),
          StartEvent.ListenAndServe ("0.0.0.0:" ++ toString flags.Port)]) ∧
    (ToLower w.uni flags.Method = "cgi" →
      main w flags =
        [StartEvent.SetupEmbeds, StartEvent.Printf "Running as CGI program",
          StartEvent.CgiServe]) ∧
    (ToLower w.uni flags.Method = "fastcgi" ∨ ToLower w.uni flags.Method = "fcgi" →
      main w flags = [StartEvent.SetupEmbeds, StartEvent.Panic]) ∧
    (ToLower w.uni flags.Method ∉ knownMethods →
      main w flags = [StartEvent.SetupEmbeds, StartEvent.Fatal "Unknown method"]) ∧
    (StartEvent.Fatal "Unknown method" ∈ main w flags ↔
      ToLower w.uni flags.Method ∉ knownMethods) ∧
    ((∃ e ∈ main w flags, e.serves = true) ↔
      (ToLower w.uni flags.Method = "http" ∨ ToLower w.uni flags.Method = "cgi")) ∧
    ((∃ e ∈ main w flags, e.createsListener = true) ↔ ToLower w.uni flags.Method = "http") ∧
    main w ⟨flags.Root, "HTTP", flags.Port, flags.Socket⟩ =
      [StartEvent.SetupEmbeds,
        StartEvent.Printf ("Starting HTTP server on port " ++ toString flags.Port),
        StartEvent.ListenAndServe ("0.0.0.0:" ++ toString flags.Port)] ∧
    main w ⟨flags.Root, "FastCGI", flags.Port, flags.Socket⟩ =
      [StartEvent.SetupEmbeds, StartEvent.Panic] := by
  have hnone := selectTransport_eq_none (ToLower w.uni flags.Method)
  have hunknown : StartEvent.Fatal "Unknown method" ∈ main w flags ↔
      ToLower w.uni flags.Method ∉ knownMethods := by
    rw [← hnone]
    constructor
    · intro hmem
      rcases hs : selectTransport (ToLower w.uni flags.Method) with _ | t
      · rfl
      · exact absurd hmem (main_known w flags t hs)
    · intro hs
      rw [main_unknown w flags hs]
      simp
  have hcases : ToLower w.uni flags.Method = "http" ∨ ToLower w.uni flags.Method = "cgi" ∨
      (ToLower w.uni flags.Method = "fastcgi" ∨ ToLower w.uni flags.Method = "fcgi") ∨
      ToLower w.uni flags.Method ∉ knownMethods := by
    by_cases hk : ToLower w.uni flags.Method ∈ knownMethods
    · simp only [knownMethods, List.mem_cons, List.mem_singleton, List.not_mem_nil,
        or_false] at hk
      rcases hk with h | h | h | h
      · exact Or.inl h
      · exact Or.inr (Or.inr (Or.inl (Or.inl h)))
      · exact Or.inr (Or.inr (Or.inl (Or.inr h)))
      · exact Or.inr (Or.inl h)
    · exact Or.inr (Or.inr (Or.inr hk))
  refine ⟨main_http w flags, main_cgi w flags, main_fastcgi w flags,
    fun hk => main_unknown w flags (hnone.2 hk), hunknown, ?_, ?_,
    main_http w ⟨flags.Root, "HTTP", flags.Port, flags.Socket⟩ rfl,
    main_fastcgi w ⟨flags.Root, "FastCGI", flags.Port, flags.Socket⟩ (Or.inl rfl)⟩
  · rcases hcases with h | h | h | h
    · rw [main_http w flags h]
      simp [StartEvent.serves, h]
    · rw [main_cgi w flags h]
      simp [StartEvent.serves, h]
    · rw [main_fastcgi w flags h]
      have h1 : ToLower w.uni flags.Method ≠ "http" := by
        rcases h with h | h <;> rw [h] <;> decide
      have h2 : ToLower w.uni flags.Method ≠ "cgi" := by
        rcases h with h | h <;> rw [h] <;> decide
      simp [StartEvent.serves, h1, h2]
    · rw [main_unknown w flags (hnone.2 h)]
      have h1 : ToLower w.uni flags.Method ≠ "http" := fun h0 => h (by simp [knownMethods, h0])
      have h2 : ToLower w.uni flags.Method ≠ "cgi" := fun h0 => h (by simp [knownMethods, h0])
      simp [StartEvent.serves, h1, h2]
  · rcases hcases with h | h | h | h
    · rw [main_http w flags h]
      simp [StartEvent.createsListener, h]
    · rw [main_cgi w flags h]
      have h1 : ToLower w.uni flags.Method ≠ "http" := by rw [h]; decide
      simp [StartEvent.createsListener, h1]
    · rw [main_fastcgi w flags h]
      have h1 : ToLower w.uni flags.Method ≠ "http" := by
        rcases h with h | h <;> rw [h] <;> decide
      simp [StartEvent.createsListener, h1]
    · rw [main_unknown w flags (hnone.2 h)]
      have h1 : ToLower w.uni flags.Method ≠ "http" := fun h0 => h (by simp [knownMethods, h0])
      simp [StartEvent.createsListener, h1]

/-- Witness of C7: the methods `garbage` and `FastCGI`. -/
theorem main_run_by_method_witness :
    main sampleWorld ⟨"/srv/www", "garbage", 9999, ""⟩
      = [StartEvent.SetupEmbeds, StartEvent.Fatal "Unknown method"] ∧
    main sampleWorld ⟨"/srv/www", "FastCGI", 9999, ""⟩
      = [StartEvent.SetupEmbeds, StartEvent.Panic] :=
  ⟨(main_run_by_method sampleWorld ⟨"/srv/www", "garbage", 9999, ""⟩).2.2.2.1 (by decide),
   (main_run_by_method sampleWorld ⟨"/srv/www", "FastCGI", 9999, ""⟩).2.2.1 (Or.inl rfl)⟩

/-- Claim C8, the code at `--method fastcgi --socket /tmp/test.sock`: in the
FastCGI branch `main` executes `defer listen.Close()` while `listen` is still
the nil interface, which panics; `net.Listen` is never reached, so no
listener is bound to the socket (or to a TCP port) and nothing is served,
whatever the socket and the port are.  The statements after the `defer`,
taken alone, do what the claim says: they listen on the Unix socket and serve
FastCGI over it. -/
theorem main_fastcgi_panics (w : World) (root socket : String) (port : Int) :
    main w ⟨root, "fastcgi", port, socket⟩ = [StartEvent.SetupEmbeds, StartEvent.Panic] ∧
    main w ⟨root, "fcgi", port, socket⟩ = [StartEvent.SetupEmbeds, StartEvent.Panic] ∧
    StartEvent.Listen "unix" "/tmp/test.sock"
      ∉ main w ⟨root, "fastcgi", port, "/tmp/test.sock"⟩ ∧
    (∀ e ∈ main w ⟨root, "fastcgi", port, "/tmp/test.sock"⟩,
      e.createsListener = false ∧ e.serves = false) ∧
    serveFastCGI sampleWorld ⟨"/srv/www", "fastcgi", 9999, "/tmp/test.sock"⟩ "0.0.0.0:9999"
      = [StartEvent.Printf "Starting FastCGI server on socket /tmp/test.sock",
          StartEvent.Listen "unix" "/tmp/test.sock",
          StartEvent.FcgiServe "unix" "/tmp/test.sock"] := by
  have hrun : ∀ socket, main w ⟨root, "fastcgi", port, socket⟩
      = [StartEvent.SetupEmbeds, StartEvent.Panic] := by
    intro socket
    have hl : ToLower w.uni "fastcgi" = "fastcgi" := rfl
    have hs : selectTransport "fastcgi" = some Transport.fastcgi := by decide
    simp [main, hl, hs, deferClose]
  have hrun2 : main w ⟨root, "fcgi", port, socket⟩
      = [StartEvent.SetupEmbeds, StartEvent.Panic] := by
    have hl : ToLower w.uni "fcgi" = "fcgi" := rfl
    have hs : selectTransport "fcgi" = some Transport.fastcgi := by decide
    simp [main, hl, hs, deferClose]
  refine ⟨hrun socket, hrun2, ?_, ?_, by decide⟩
  · rw [hrun]; simp
  · rw [hrun]
    intro e he
    simp only [List.mem_cons, List.mem_singleton, List.not_mem_nil, or_false] at he
    rcases he with rfl | rfl <;> simp [StartEvent.createsListener, StartEvent.serves]

end Spinnerette
